import Mathlib

/-!
Shallow embedding of the blog4go rotating buffered writer engine.

The definitions below are translated from the Go source:
the BLog renderer (`write` and the `writef` placeholder scanner) and the
baseFileWriter rotation daemon (`sizeTick`, `timeTick`), together with the
rotation-policy setters and the close/write lifecycle of a base file
writer.  Strings are modelled as lists of bytes (`List Char`, one entry
per byte; the claims only concern single-byte characters, for which Go's
rune iteration coincides with byte iteration).  `fmt.Sprintf` applied to a
one-verb format and a single argument is abstracted as a parameter
`spf : List Char → A → List Char`; the Go runtime panic on an
out-of-range `args[n]` access is modelled by `Option.none`.
-/

namespace Blog4go

/-- Go slice expression s[a:b] on a list of bytes. -/
def slice (xs : List Char) (a b : Nat) : List Char :=
  (xs.drop a).take (b - a)

/-- EOL, the record terminator byte appended by write and writef. -/
def EOL : Char := '\n'

/-- ESCAPE, the escape byte recognized inside placeholder mode. -/
def ESCAPE : Char := '\\'

/-- PLACEHOLDER, the byte that opens a placeholder. -/
def PLACEHOLDER : Char := '%'

/-- The verb bytes recognized by the writef scan loop
    (the case list of the Go switch). -/
def isVerb (c : Char) : Bool :=
  c == 'd' || c == 'f' || c == 'v' || c == 'b' || c == 'o' || c == 'x' ||
  c == 'X' || c == 'c' || c == 'p' || c == 't' || c == 's' || c == 'T' ||
  c == 'q' || c == 'U' || c == 'e' || c == 'E' || c == 'g' || c == 'G'

/-- Scanner state of the BLog.writef loop: the tag / tagPos / escape /
    n / last variables of the Go function, plus the bytes written to the
    buffer so far (`out`) and the running size counter (`size`). -/
structure WState where
  tag : Bool
  tagPos : Nat
  escape : Bool
  n : Nat
  last : Nat
  out : List Char
  size : Nat
deriving Repr, DecidableEq

/-- One iteration of the BLog.writef scan loop on character c sitting at
    byte index i of fmt.  `none` models the Go panic raised by the
    out-of-range access args[n] in the verb case. -/
def wstep {A : Type} (spf : List Char → A → List Char) (fmt : List Char)
    (args : List A) (st : WState) (i : Nat) (c : Char) : Option WState :=
  if st.tag then
    if isVerb c then
      match args.get? st.n with
      | none => none
      | some a =>
        let r := spf (slice fmt st.tagPos (i + 1)) a
        some { st with escape := false, out := st.out ++ r,
                       size := st.size + r.length, n := st.n + 1,
                       last := i + 1, tag := false }
    else if c = ESCAPE then
      if st.escape then
        some { st with out := st.out ++ [ESCAPE], size := st.size + 1,
                       escape := false }
      else
        some { st with escape := true }
    else
      some st
  else
    if c = PLACEHOLDER ∧ st.escape = false then
      some { st with tag := true, tagPos := i,
                     out := st.out ++ slice fmt st.last i,
                     size := st.size + (slice fmt st.last i).length,
                     escape := false }
    else
      some st

/-- Run the writef scan loop over the remaining characters cs, the first
    of which sits at byte index i of fmt. -/
def wrun {A : Type} (spf : List Char → A → List Char) (fmt : List Char)
    (args : List A) : Nat → List Char → WState → Option WState
  | _, [], st => some st
  | i, c :: cs, st =>
    match wstep spf fmt args st i c with
    | none => none
    | some st2 => wrun spf fmt args (i + 1) cs st2

/-- BLog.writef: writes the cached time prefix tc and the level prefix lv,
    scans fmt substituting each recognized verb against the next argument
    (spf models fmt.Sprintf on a one-verb format), flushes the tail
    fmt[last:], appends EOL, and returns the bytes appended to the buffer
    together with the size value the Go function returns.  `none` models
    the runtime panic on an out-of-range argument access. -/
def writef {A : Type} (spf : List Char → A → List Char) (tc lv : List Char)
    (fmt : List Char) (args : List A) : Option (List Char × Nat) :=
  let st0 : WState :=
    { tag := false, tagPos := 0, escape := false, n := 0, last := 0,
      out := tc ++ lv, size := tc.length + lv.length }
  match wrun spf fmt args 0 fmt st0 with
  | none => none
  | some st =>
    some (st.out ++ fmt.drop st.last ++ [EOL],
          st.size + (fmt.drop st.last).length + 1)

/-- BLog.write: writes the time prefix, the level prefix, the message and
    EOL, and returns the computed size. -/
def write (tc lv msg : List Char) : List Char × Nat :=
  (tc ++ lv ++ msg ++ [EOL], tc.length + lv.length + msg.length + 1)

/-- Number of argument substitutions the writef scan attempts on fmt,
    computed by the same tag / escape automaton as the scan loop. -/
def needed : List Char → Bool → Bool → Nat
  | [], _, _ => 0
  | c :: cs, tag, esc =>
    if tag then
      if isVerb c then needed cs false false + 1
      else if c = ESCAPE then needed cs true (!esc)
      else needed cs true esc
    else
      if c = PLACEHOLDER ∧ esc = false then needed cs true false
      else needed cs false esc

/-- Arguments consumed by a full writef scan of fmt. -/
def argsNeeded (fmt : List Char) : Nat := needed fmt false false

/-- A concrete instance of the abstract Sprintf parameter used to
    evaluate the renderer on concrete inputs: the rendered form of an
    argument (already a byte list) is the argument itself. -/
def spf0 : List Char → List Char → List Char := fun _ a => a

/-- The rotation-relevant state of a baseFileWriter: the target file name,
    the current file handle (`none` models a nil handle left by a failed
    os.OpenFile), the closed sign, the three rotation policies with their
    thresholds, and the rotation counters.  ByteSize and the Go ints are
    modelled as Int (no counter in the claims approaches 2^63). -/
structure RotState where
  fileName : String
  file : Option String
  closed : Bool
  timeRotated : Bool
  sizeRotated : Bool
  rotateSize : Int
  lineRotated : Bool
  rotateLines : Int
  currentSize : Int
  currentLines : Int
  sizeRotateTimes : Nat
deriving Repr, DecidableEq

/-- The logSizeChan case of baseFileWriter.daemon, processing one byte
    count signal.  openFn models os.OpenFile on the rotated name: the Go
    code discards the error (`file, _ :=`), so a failed open yields a nil
    handle, modelled by openFn returning none; the old handle is closed
    and replaced unconditionally.  Returns the new state and the rotated
    file name when a rotation was performed. -/
def sizeTick (openFn : String → Option String) (st : RotState)
    (size : Int) (date : String) : RotState × Option String :=
  if st.closed then (st, none)
  else if st.sizeRotated = false ∧ st.lineRotated = false then (st, none)
  else
    let st1 := { st with currentSize := st.currentSize + size,
                         currentLines := st.currentLines + 1 }
    if (st1.sizeRotated = true ∧ st1.rotateSize < st1.currentSize) ∨
       (st1.lineRotated = true ∧ st1.rotateLines < st1.currentLines) then
      let n := st1.sizeRotateTimes + 1
      let name :=
        if st1.timeRotated then
          st1.fileName ++ "." ++ date ++ "." ++ toString (n + 1)
        else
          st1.fileName ++ "." ++ toString (n + 1)
      ({ st1 with sizeRotateTimes := n, currentSize := 0,
                  currentLines := 0, file := openFn name }, some name)
    else
      (st1, none)

/-- The one-second timer case of baseFileWriter.daemon: date is the
    freshly formatted current date, cached is timeCache.date, yest is
    timeCache.dateYesterday.  On a date change with time rotation enabled
    the sequence counter is reset and the file is swapped to
    fileName.yesterday; the counters currentSize and currentLines are not
    touched.  openFn models os.OpenFile as in sizeTick. -/
def timeTick (openFn : String → Option String) (st : RotState)
    (date cached yest : String) : RotState × Option String :=
  if st.closed then (st, none)
  else if st.timeRotated = true ∧ date ≠ cached then
    let name := st.fileName ++ "." ++ yest
    ({ st with sizeRotateTimes := 0, file := openFn name }, some name)
  else
    (st, none)

/-- baseFileWriter.SetTimeRotated. -/
def setTimeRotated (st : RotState) (b : Bool) : RotState :=
  { st with timeRotated := b }

/-- baseFileWriter.SetRotateSize: a positive size enables size rotation
    and stores the threshold; otherwise size rotation is disabled and the
    stored threshold is left as it was. -/
def setRotateSize (st : RotState) (v : Int) : RotState :=
  if 0 < v then { st with sizeRotated := true, rotateSize := v }
  else { st with sizeRotated := false }

/-- baseFileWriter.SetRotateLines: a positive count enables line rotation
    and stores the threshold; otherwise line rotation is disabled and the
    stored threshold is left as it was. -/
def setRotateLines (st : RotState) (v : Int) : RotState :=
  if 0 < v then { st with lineRotated := true, rotateLines := v }
  else { st with lineRotated := false }

/-- An os.OpenFile model that always succeeds, returning a handle on the
    requested name. -/
def justOpen : String → Option String := fun n => some n

/-- An os.OpenFile model that always fails; the Go code discards the
    returned error and is left with a nil handle. -/
def failOpen : String → Option String := fun _ => none

/-- State of the writer after k byte-count signals of size s have been
    processed by the daemon. -/
def iterWrites (openFn : String → Option String) (s : Int) (d : String)
    (st : RotState) : Nat → RotState
  | 0 => st
  | Nat.succ k => (sizeTick openFn (iterWrites openFn s d st k) s d).1

/-- A concrete writer state used to build test fixtures: all rotation
    policies off, counters zero, an open handle on app.log. -/
def mkState : RotState :=
  { fileName := "app.log", file := some "app.log", closed := false,
    timeRotated := false, sizeRotated := false, rotateSize := 0,
    lineRotated := false, rotateLines := 0, currentSize := 0,
    currentLines := 0, sizeRotateTimes := 0 }

/-- Fixture for pure size-based rotation with threshold T. -/
def sizeOnlyState (T : Nat) : RotState :=
  { mkState with sizeRotated := true, rotateSize := (T : Int) }

/-- Fixture for pure line-based rotation with threshold L. -/
def lineOnlyState (L : Nat) : RotState :=
  { mkState with lineRotated := true, rotateLines := (L : Int) }

/-- The write-path state of a baseFileWriter: the closed sign, the bytes
    buffered in the BLog bufio writer, the bytes already flushed to the
    sink, the size/line rotation signs consulted by the deferred send and
    the byte counts queued on logSizeChan. -/
structure BFW where
  closed : Bool
  buffer : List Char
  sink : List Char
  sizeRotated : Bool
  lineRotated : Bool
  signals : List Nat
deriving Repr, DecidableEq

/-- baseFileWriter.write: when closed it returns before touching the
    BLog, the deferred function still queueing a zero byte count when a
    size or line policy is on; otherwise blog.write appends the rendered
    record to the buffer and the returned size is queued. -/
def bfwWrite (tc lv : List Char) (w : BFW) (msg : List Char) : BFW :=
  if w.closed then
    if w.sizeRotated || w.lineRotated then
      { w with signals := w.signals ++ [0] }
    else w
  else
    let r := write tc lv msg
    let w2 := { w with buffer := w.buffer ++ r.1 }
    if w.sizeRotated || w.lineRotated then
      { w2 with signals := w2.signals ++ [r.2] }
    else w2

/-- baseFileWriter.writef: as bfwWrite but through the placeholder
    renderer; `none` propagates the writef panic. -/
def bfwWritef {A : Type} (spf : List Char → A → List Char)
    (tc lv : List Char) (w : BFW) (fmt : List Char) (args : List A) :
    Option BFW :=
  if w.closed then
    some (if w.sizeRotated || w.lineRotated then
            { w with signals := w.signals ++ [0] }
          else w)
  else
    match writef spf tc lv fmt args with
    | none => none
    | some r =>
      let w2 := { w with buffer := w.buffer ++ r.1 }
      some (if w.sizeRotated || w.lineRotated then
              { w2 with signals := w2.signals ++ [r.2] }
            else w2)

/-- baseFileWriter.Close: a no-op when already closed; otherwise
    blog.Close flushes the buffered bytes to the sink and the closed sign
    is set. -/
def bfwClose (w : BFW) : BFW :=
  if w.closed then w
  else { w with closed := true, buffer := [],
                sink := w.sink ++ w.buffer }

lemma wstep_size {A : Type} (spf : List Char → A → List Char)
    (fmt : List Char) (args : List A) (st : WState) (i : Nat) (c : Char)
    (st2 : WState) (h : wstep spf fmt args st i c = some st2)
    (hs : st.size = st.out.length) : st2.size = st2.out.length := by
  cases hg : args.get? st.n <;>
    unfold wstep at h <;>
    simp only [hg] at h <;>
    split_ifs at h <;>
    (cases h; simp [hs, List.length_append])

lemma wrun_size {A : Type} (spf : List Char → A → List Char)
    (fmt : List Char) (args : List A) :
    ∀ (cs : List Char) (i : Nat) (st st2 : WState),
      wrun spf fmt args i cs st = some st2 →
      st.size = st.out.length → st2.size = st2.out.length := by
  intro cs
  induction cs with
  | nil => intro i st st2 h hs; unfold wrun at h; cases h; exact hs
  | cons c cs ih =>
    intro i st st2 h hs
    unfold wrun at h
    cases hw : wstep spf fmt args st i c with
    | none => rw [hw] at h; cases h
    | some st1 =>
      rw [hw] at h
      exact ih (i + 1) st1 st2 h (wstep_size spf fmt args st i c st1 hw hs)

lemma wrun_none_iff {A : Type} (spf : List Char → A → List Char)
    (fmt : List Char) (args : List A) :
    ∀ (cs : List Char) (i : Nat) (st : WState),
      (wrun spf fmt args i cs st = none ↔
        1 ≤ needed cs st.tag st.escape ∧
          args.length < st.n + needed cs st.tag st.escape) := by
  have hve : isVerb ESCAPE = false := by decide
  intro cs
  induction cs with
  | nil =>
    intro i st
    unfold wrun needed
    simp
  | cons c cs ih =>
    intro i st
    unfold wrun wstep needed
    by_cases ht : st.tag = true
    · by_cases hv : isVerb c = true
      · simp only [ht, hv, if_true]
        cases hg : args.get? st.n with
        | none =>
          have hle : args.length ≤ st.n := List.get?_eq_none.mp hg
          simp only [hg]
          simp
          omega
        | some a =>
          have hlt : st.n < args.length := (List.get?_eq_some.mp hg).1
          simp only [hg]
          rw [ih]
          simp
          omega
      · by_cases he : c = ESCAPE
        · subst he
          by_cases hesc : st.escape = true
          · simp [ht, hve, hesc]
            exact ih _ _
          · simp [ht, hve, hesc]
            exact ih _ _
        · simp [ht, hv, he]
          rw [ih, ht]
    · by_cases hp : c = PLACEHOLDER ∧ st.escape = false
      · simp [ht, hp.1, hp.2]
        exact ih _ _
      · simp [ht, hp]
        rw [ih, eq_false_of_ne_true ht]

lemma wrun_append {A : Type} (spf : List Char → A → List Char)
    (fmt : List Char) (args : List A) :
    ∀ (xs ys : List Char) (i : Nat) (st : WState),
      wrun spf fmt args i (xs ++ ys) st =
        (wrun spf fmt args i xs st).bind
          (fun st2 => wrun spf fmt args (i + xs.length) ys st2) := by
  intro xs
  induction xs with
  | nil => intro ys i st; simp [wrun]
  | cons x xs ih =>
    intro ys i st
    simp only [List.cons_append, wrun, List.length_cons]
    cases hw : wstep spf fmt args st i x with
    | none => simp only [hw, Option.none_bind]
    | some st1 =>
      simp only [hw, Option.some_bind, List.append_eq]
      rw [ih]
      have h9 : i + 1 + xs.length = i + (xs.length + 1) := by omega
      simp only [h9]

lemma wrun_lit {A : Type} (spf : List Char → A → List Char)
    (fmt : List Char) (args : List A) :
    ∀ (cs : List Char) (i : Nat) (st : WState), st.tag = false →
      st.escape = false → (∀ c ∈ cs, c ≠ PLACEHOLDER) →
      wrun spf fmt args i cs st = some st := by
  intro cs
  induction cs with
  | nil => intro i st _ _ _; rfl
  | cons c cs ih =>
    intro i st ht hesc hcs
    unfold wrun wstep
    rw [ht]
    simp only [Bool.false_eq_true, if_false]
    have hc : ¬(c = PLACEHOLDER ∧ st.escape = false) := by
      intro hand
      exact hcs c (List.mem_cons_self c cs) hand.1
    rw [if_neg hc]
    exact ih (i + 1) st ht hesc (fun x hx => hcs x (List.mem_cons_of_mem c hx))

lemma wrun_stuck {A : Type} (spf : List Char → A → List Char)
    (fmt : List Char) (args : List A) :
    ∀ (cs : List Char) (i : Nat) (st : WState), st.tag = true →
      (∀ c ∈ cs, isVerb c = false ∧ c ≠ ESCAPE) →
      wrun spf fmt args i cs st = some st := by
  intro cs
  induction cs with
  | nil => intro i st _ _; rfl
  | cons c cs ih =>
    intro i st ht hcs
    unfold wrun wstep
    rw [ht]
    simp only [if_true]
    have h1 := hcs c (List.mem_cons_self c cs)
    rw [h1.1]
    simp only [Bool.false_eq_true, if_false]
    rw [if_neg h1.2]
    exact ih (i + 1) st ht (fun x hx => hcs x (List.mem_cons_of_mem c hx))

lemma sizeTick_config (o : String → Option String) (st : RotState)
    (s : Int) (d : String) :
    (sizeTick o st s d).1.closed = st.closed ∧
    (sizeTick o st s d).1.timeRotated = st.timeRotated ∧
    (sizeTick o st s d).1.sizeRotated = st.sizeRotated ∧
    (sizeTick o st s d).1.lineRotated = st.lineRotated ∧
    (sizeTick o st s d).1.rotateSize = st.rotateSize ∧
    (sizeTick o st s d).1.rotateLines = st.rotateLines ∧
    (sizeTick o st s d).1.fileName = st.fileName := by
  simp only [sizeTick]
  split_ifs <;> simp

lemma succ_mod_eq (k p : Nat) :
    (k + 1) % p = (k % p + 1) % p := by
  conv_lhs => rw [show k + 1 = k % p + 1 + p * (k / p) by
    have := Nat.mod_add_div k p
    omega]
  rw [Nat.add_mul_mod_self_left]

lemma sizeOnly_tick (T s : Nat) (hs : 0 < s) (d : String) (k : Nat)
    (st : RotState) (hcl : st.closed = false) (hsr : st.sizeRotated = true)
    (hlr : st.lineRotated = false) (hrs : st.rotateSize = (T : Int))
    (hcur : st.currentSize = ((k % (T / s + 1)) * s : Nat)) :
    (sizeTick justOpen st (s : Int) d).1.currentSize =
      ((((k + 1) % (T / s + 1)) * s : Nat) : Int) ∧
    ((sizeTick justOpen st (s : Int) d).2.isSome = true ↔
      (k + 1) % (T / s + 1) = 0) := by
  obtain ⟨q, hq⟩ : ∃ q, T / s = q := ⟨T / s, rfl⟩
  obtain ⟨c, hcm⟩ : ∃ c, k % (T / s + 1) = c := ⟨k % (T / s + 1), rfl⟩
  have hc : c < q + 1 := by
    rw [← hcm, ← hq]
    exact Nat.mod_lt _ (by omega)
  have hmod : (k + 1) % (T / s + 1) = (c + 1) % (q + 1) := by
    rw [succ_mod_eq k _, hcm, hq]
  have hkey : (T : Int) < st.currentSize + (s : Int) ↔ q + 1 ≤ c + 1 := by
    rw [hcur, hcm]
    constructor
    · intro h
      have h2 : T < c * s + s := by exact_mod_cast h
      have h3 : T < (c + 1) * s := by
        rw [add_mul, one_mul]
        exact h2
      have h4 := (Nat.div_lt_iff_lt_mul hs).mpr h3
      rw [hq] at h4
      omega
    · intro h
      have h3 : T / s < c + 1 := by omega
      have h4 : T < (c + 1) * s := (Nat.div_lt_iff_lt_mul hs).mp h3
      have h2 : T < c * s + s := by
        rw [add_mul, one_mul] at h4
        exact h4
      exact_mod_cast h2
  simp only [sizeTick, hcl, Bool.false_eq_true, if_false]
  rw [if_neg (by rw [hsr]; simp)]
  by_cases hrot : q + 1 ≤ c + 1
  · have hz : (k + 1) % (T / s + 1) = 0 := by
      rw [hmod, show c + 1 = q + 1 by omega, Nat.mod_self]
    rw [if_pos (Or.inl ⟨hsr, by rw [hrs]; exact hkey.mpr hrot⟩)]
    simp [hz]
  · have hz : (k + 1) % (T / s + 1) = c + 1 := by
      rw [hmod, Nat.mod_eq_of_lt (by omega)]
    rw [if_neg (by
      rintro (⟨h1, h2⟩ | ⟨h1, h2⟩)
      · rw [hrs] at h2
        exact hrot (hkey.mp h2)
      · rw [hlr] at h1
        cases h1)]
    constructor
    · simp only [hcur, hcm, hz]
      push_cast
      ring
    · simp [hz]

lemma lineOnly_tick (L : Nat) (s : Int) (d : String) (k : Nat)
    (st : RotState) (hcl : st.closed = false) (hsr : st.sizeRotated = false)
    (hlr : st.lineRotated = true) (hrl : st.rotateLines = (L : Int))
    (hcur : st.currentLines = ((k % (L + 1) : Nat) : Int)) :
    (sizeTick justOpen st s d).1.currentLines =
      (((k + 1) % (L + 1) : Nat) : Int) ∧
    ((sizeTick justOpen st s d).2.isSome = true ↔
      (k + 1) % (L + 1) = 0) := by
  obtain ⟨c, hcm⟩ : ∃ c, k % (L + 1) = c := ⟨k % (L + 1), rfl⟩
  have hc : c < L + 1 := by
    rw [← hcm]
    exact Nat.mod_lt _ (by omega)
  have hmod : (k + 1) % (L + 1) = (c + 1) % (L + 1) := by
    rw [succ_mod_eq k _, hcm]
  have hkey : (L : Int) < st.currentLines + 1 ↔ L + 1 ≤ c + 1 := by
    rw [hcur, hcm]
    constructor
    · intro h
      have h2 : L < c + 1 := by exact_mod_cast h
      omega
    · intro h
      have h2 : L < c + 1 := by omega
      exact_mod_cast h2
  simp only [sizeTick, hcl, Bool.false_eq_true, if_false]
  rw [if_neg (by rw [hlr]; simp)]
  by_cases hrot : L + 1 ≤ c + 1
  · have hz : (k + 1) % (L + 1) = 0 := by
      rw [hmod, show c + 1 = L + 1 by omega, Nat.mod_self]
    rw [if_pos (Or.inr ⟨hlr, by rw [hrl]; exact hkey.mpr hrot⟩)]
    simp [hz]
  · have hz : (k + 1) % (L + 1) = c + 1 := by
      rw [hmod, Nat.mod_eq_of_lt (by omega)]
    rw [if_neg (by
      rintro (⟨h1, h2⟩ | ⟨h1, h2⟩)
      · rw [hsr] at h1
        cases h1
      · rw [hrl] at h2
        exact hrot (hkey.mp h2))]
    constructor
    · simp only [hcur, hcm, hz]
      push_cast
      ring
    · simp [hz]

lemma iter_sizeOnly (T s : Nat) (hs : 0 < s) (d : String) :
    ∀ k : Nat,
      (iterWrites justOpen (s : Int) d (sizeOnlyState T) k).closed = false ∧
      (iterWrites justOpen (s : Int) d (sizeOnlyState T) k).sizeRotated = true ∧
      (iterWrites justOpen (s : Int) d (sizeOnlyState T) k).lineRotated = false ∧
      (iterWrites justOpen (s : Int) d (sizeOnlyState T) k).rotateSize = (T : Int) ∧
      (iterWrites justOpen (s : Int) d (sizeOnlyState T) k).currentSize =
        ((k % (T / s + 1)) * s : Nat) := by
  intro k
  induction k with
  | zero => simp [iterWrites, sizeOnlyState, mkState]
  | succ k ih =>
    obtain ⟨h1, h2, h3, h4, h5⟩ := ih
    have hcfg := sizeTick_config justOpen
      (iterWrites justOpen (s : Int) d (sizeOnlyState T) k) (s : Int) d
    have htick := sizeOnly_tick T s hs d k
      (iterWrites justOpen (s : Int) d (sizeOnlyState T) k) h1 h2 h3 h4 h5
    refine ⟨?_, ?_, ?_, ?_, ?_⟩
    · rw [show iterWrites justOpen (s : Int) d (sizeOnlyState T) (k + 1) =
          (sizeTick justOpen (iterWrites justOpen (s : Int) d (sizeOnlyState T) k)
            (s : Int) d).1 from rfl]
      rw [hcfg.1, h1]
    · rw [show iterWrites justOpen (s : Int) d (sizeOnlyState T) (k + 1) =
          (sizeTick justOpen (iterWrites justOpen (s : Int) d (sizeOnlyState T) k)
            (s : Int) d).1 from rfl]
      rw [hcfg.2.2.1, h2]
    · rw [show iterWrites justOpen (s : Int) d (sizeOnlyState T) (k + 1) =
          (sizeTick justOpen (iterWrites justOpen (s : Int) d (sizeOnlyState T) k)
            (s : Int) d).1 from rfl]
      rw [hcfg.2.2.2.1, h3]
    · rw [show iterWrites justOpen (s : Int) d (sizeOnlyState T) (k + 1) =
          (sizeTick justOpen (iterWrites justOpen (s : Int) d (sizeOnlyState T) k)
            (s : Int) d).1 from rfl]
      rw [hcfg.2.2.2.2.1, h4]
    · exact htick.1

lemma iter_lineOnly (L : Nat) (s : Nat) (d : String) :
    ∀ k : Nat,
      (iterWrites justOpen (s : Int) d (lineOnlyState L) k).closed = false ∧
      (iterWrites justOpen (s : Int) d (lineOnlyState L) k).sizeRotated = false ∧
      (iterWrites justOpen (s : Int) d (lineOnlyState L) k).lineRotated = true ∧
      (iterWrites justOpen (s : Int) d (lineOnlyState L) k).rotateLines = (L : Int) ∧
      (iterWrites justOpen (s : Int) d (lineOnlyState L) k).currentLines =
        ((k % (L + 1) : Nat) : Int) := by
  intro k
  induction k with
  | zero => simp [iterWrites, lineOnlyState, mkState]
  | succ k ih =>
    obtain ⟨h1, h2, h3, h4, h5⟩ := ih
    have hcfg := sizeTick_config justOpen
      (iterWrites justOpen (s : Int) d (lineOnlyState L) k) (s : Int) d
    have htick := lineOnly_tick L (s : Int) d k
      (iterWrites justOpen (s : Int) d (lineOnlyState L) k) h1 h2 h3 h4 h5
    refine ⟨?_, ?_, ?_, ?_, ?_⟩
    · rw [show iterWrites justOpen (s : Int) d (lineOnlyState L) (k + 1) =
          (sizeTick justOpen (iterWrites justOpen (s : Int) d (lineOnlyState L) k)
            (s : Int) d).1 from rfl]
      rw [hcfg.1, h1]
    · rw [show iterWrites justOpen (s : Int) d (lineOnlyState L) (k + 1) =
          (sizeTick justOpen (iterWrites justOpen (s : Int) d (lineOnlyState L) k)
            (s : Int) d).1 from rfl]
      rw [hcfg.2.2.1, h2]
    · rw [show iterWrites justOpen (s : Int) d (lineOnlyState L) (k + 1) =
          (sizeTick justOpen (iterWrites justOpen (s : Int) d (lineOnlyState L) k)
            (s : Int) d).1 from rfl]
      rw [hcfg.2.2.2.1, h3]
    · rw [show iterWrites justOpen (s : Int) d (lineOnlyState L) (k + 1) =
          (sizeTick justOpen (iterWrites justOpen (s : Int) d (lineOnlyState L) k)
            (s : Int) d).1 from rfl]
      rw [hcfg.2.2.2.2.2.1, h4]
    · exact htick.1

/-- A size-only writer fixture (time rotation off, so size rotations
    take the dateless naming branch), used by the concrete witnesses
    below. -/
def sizeOnlyW : RotState :=
  { mkState with sizeRotated := true, rotateSize := 1 }

/-- A time-only writer fixture (size and line rotation off, nonzero
    counters), used by the concrete witnesses below. -/
def timeOnlyW : RotState :=
  { mkState with timeRotated := true, currentSize := 7, currentLines := 3 }

/-- On any state where the size/line branch of the daemon rotates, both
    counters of the resulting state are zero and the opened name is the
    file name suffixed with the post-increment rotation sequence plus
    one, dated with the current date exactly when time rotation is also
    enabled. -/
lemma sizeTick_rotated (o : String → Option String) (st : RotState)
    (s : Int) (d : String)
    (h1 : (sizeTick o st s d).2.isSome = true) :
    (sizeTick o st s d).1.currentSize = 0 ∧
    (sizeTick o st s d).1.currentLines = 0 ∧
    (sizeTick o st s d).2 =
      some (if st.timeRotated then
              st.fileName ++ "." ++ d ++ "." ++
                toString (st.sizeRotateTimes + 2)
            else
              st.fileName ++ "." ++ toString (st.sizeRotateTimes + 2)) := by
  by_cases hcl : st.closed = true
  · simp [sizeTick, hcl] at h1
  by_cases hsl : st.sizeRotated = false ∧ st.lineRotated = false
  · simp [sizeTick, hcl, hsl] at h1
  by_cases hrot :
      (st.sizeRotated = true ∧ st.rotateSize < st.currentSize + s) ∨
      (st.lineRotated = true ∧ st.rotateLines < st.currentLines + 1)
  case neg => simp [sizeTick, hcl, hsl, hrot] at h1
  simp [sizeTick, hcl, hsl, hrot]

/-- On any state where the time branch of the daemon rotates, both
    counters are left unchanged, the rotation sequence is reset to zero
    and the opened name is the file name suffixed with the cached
    previous date. -/
lemma timeTick_rotated (o : String → Option String) (st : RotState)
    (d dc y : String)
    (h2 : (timeTick o st d dc y).2.isSome = true) :
    (timeTick o st d dc y).1.currentSize = st.currentSize ∧
    (timeTick o st d dc y).1.currentLines = st.currentLines ∧
    (timeTick o st d dc y).1.sizeRotateTimes = 0 ∧
    (timeTick o st d dc y).2 = some (st.fileName ++ "." ++ y) := by
  by_cases hcl : st.closed = true
  · simp [timeTick, hcl] at h2
  by_cases htr : st.timeRotated = true ∧ ¬d = dc
  case neg => simp [timeTick, hcl, htr] at h2
  simp [timeTick, hcl, htr]

/-- C1 counterexample: the claim says writef never panics or aborts the
    caller on an argument/placeholder count mismatch, but on the format
    string consisting of a d verb with an empty argument list the Go code
    evaluates args with index 0 out of range and panics, modelled here by
    the renderer returning none. -/
theorem claim1_counterexample :
    writef spf0 [] [] [PLACEHOLDER, 'd'] ([] : List (List Char)) = none := by
  decide

/-- C1 amended: writef aborts the caller with an out-of-range argument
    access exactly when the recognized placeholder verbs of the format
    string outnumber the supplied arguments; it does not skip or leave
    literal the dangling placeholder.  With enough arguments it never
    panics. -/
theorem claim1_theorem {A : Type} (spf : List Char → A → List Char)
    (tc lv fmt : List Char) (args : List A) :
    writef spf tc lv fmt args = none ↔ args.length < argsNeeded fmt := by
  unfold writef argsNeeded
  have h := wrun_none_iff spf fmt args fmt 0
      { tag := false, tagPos := 0, escape := false, n := 0, last := 0,
        out := tc ++ lv, size := tc.length + lv.length }
  cases hw : wrun spf fmt args 0 fmt
      { tag := false, tagPos := 0, escape := false, n := 0, last := 0,
        out := tc ++ lv, size := tc.length + lv.length } with
  | none =>
    rw [hw] at h
    simp only [hw]
    simp at h ⊢
    omega
  | some st =>
    rw [hw] at h
    simp only [hw]
    simp at h ⊢
    omega

/-- C2: the claim says a backslash immediately before a percent sign never
    opens a placeholder and the percent is emitted literally.  The code
    only toggles the escape flag inside placeholder mode, so outside a
    placeholder the flag is always false and the escaped-percent guard is
    dead: on the format backslash-percent-d with argument 5 the percent
    does open a placeholder and substitution fires, producing the body
    backslash-5 instead of a literal percent-d.  This evaluates the code
    at that failing input. -/
theorem claim2_theorem :
    writef spf0 [] [] [ESCAPE, PLACEHOLDER, 'd'] [['5']] =
      some ([ESCAPE, '5', EOL], 3) ∧
    writef spf0 [] [] [ESCAPE, PLACEHOLDER, 'd'] [['5']] ≠
      some ([ESCAPE, PLACEHOLDER, 'd', EOL], 4) := by
  decide

/-- C3 counterexample: the claim says every rotation resets currentSize
    and currentLines to zero, but a time-based rotation (date change with
    time rotation enabled) leaves both counters untouched: starting from
    currentSize 7 and currentLines 3 the rotation fires yet currentSize
    is still 7. -/
theorem claim3_counterexample :
    (timeTick justOpen
        { mkState with timeRotated := true, currentSize := 7,
                       currentLines := 3 }
        "2015-01-02" "2015-01-01" "2015-01-01").2.isSome = true ∧
    (timeTick justOpen
        { mkState with timeRotated := true, currentSize := 7,
                       currentLines := 3 }
        "2015-01-02" "2015-01-01" "2015-01-01").1.currentSize ≠ 0 := by
  decide

/-- C3 amended: a size/line-based rotation resets both currentSize and
    currentLines to zero, while a time-based rotation leaves both
    counters unchanged and resets only the rotation sequence
    sizeRotateTimes to zero.  The two parts are independent: st is any
    state on which a size/line rotation fires, st2 any state on which a
    time rotation fires. -/
theorem claim3_theorem (o o2 : String → Option String) (st st2 : RotState)
    (s : Int) (d d2 dc y : String)
    (h1 : (sizeTick o st s d).2.isSome = true)
    (h2 : (timeTick o2 st2 d2 dc y).2.isSome = true) :
    (sizeTick o st s d).1.currentSize = 0 ∧
    (sizeTick o st s d).1.currentLines = 0 ∧
    (timeTick o2 st2 d2 dc y).1.currentSize = st2.currentSize ∧
    (timeTick o2 st2 d2 dc y).1.currentLines = st2.currentLines ∧
    (timeTick o2 st2 d2 dc y).1.sizeRotateTimes = 0 := by
  obtain ⟨hs1, hs2, _⟩ := sizeTick_rotated o st s d h1
  obtain ⟨ht1, ht2, ht3, _⟩ := timeTick_rotated o2 st2 d2 dc y h2
  exact ⟨hs1, hs2, ht1, ht2, ht3⟩

/-- C3 witness: the size part applies to a size-only writer and the time
    part to a time-only writer with nonzero counters. -/
theorem claim3_witness :
    (sizeTick justOpen sizeOnlyW 5 "2015-01-02").2.isSome = true ∧
    (timeTick justOpen timeOnlyW "2015-01-02" "2015-01-01"
        "2015-01-01").2.isSome = true ∧
    ((sizeTick justOpen sizeOnlyW 5 "2015-01-02").1.currentSize = 0 ∧
     (sizeTick justOpen sizeOnlyW 5 "2015-01-02").1.currentLines = 0 ∧
     (timeTick justOpen timeOnlyW "2015-01-02" "2015-01-01"
        "2015-01-01").1.currentSize = timeOnlyW.currentSize ∧
     (timeTick justOpen timeOnlyW "2015-01-02" "2015-01-01"
        "2015-01-01").1.currentLines = timeOnlyW.currentLines ∧
     (timeTick justOpen timeOnlyW "2015-01-02" "2015-01-01"
        "2015-01-01").1.sizeRotateTimes = 0) :=
  ⟨by decide, by decide,
    claim3_theorem justOpen justOpen sizeOnlyW timeOnlyW 5 "2015-01-02"
      "2015-01-02" "2015-01-01" "2015-01-01" (by decide) (by decide)⟩

/-- C4: size/line rotation triggers strictly on excess, never on
    equality.  With size threshold T and repeated writes of s bytes under
    a pure size policy, rotation fires at write k+1 exactly when
    floor(T/s)+1 divides k+1, and the size counter after k+1 writes is
    ((k+1) mod (floor(T/s)+1)) times s, hence zero right after each
    rotation.  Under a pure line policy with threshold L, rotation fires
    at write k+1 exactly when L+1 divides k+1 and the line counter is
    (k+1) mod (L+1), hence zero right after each rotation. -/
theorem claim4_theorem (T s L : Nat) (hs : 0 < s) (d : String) (k : Nat) :
    ((sizeTick justOpen (iterWrites justOpen (s : Int) d (sizeOnlyState T) k)
        (s : Int) d).2.isSome = true ↔ (k + 1) % (T / s + 1) = 0) ∧
    (iterWrites justOpen (s : Int) d (sizeOnlyState T) (k + 1)).currentSize =
      ((((k + 1) % (T / s + 1)) * s : Nat) : Int) ∧
    ((sizeTick justOpen (iterWrites justOpen (s : Int) d (lineOnlyState L) k)
        (s : Int) d).2.isSome = true ↔ (k + 1) % (L + 1) = 0) ∧
    (iterWrites justOpen (s : Int) d (lineOnlyState L) (k + 1)).currentLines =
      (((k + 1) % (L + 1) : Nat) : Int) := by
  obtain ⟨a1, a2, a3, a4, a5⟩ := iter_sizeOnly T s hs d k
  obtain ⟨b1, b2, b3, b4, b5⟩ := iter_lineOnly L s d k
  have hticks := sizeOnly_tick T s hs d k
    (iterWrites justOpen (s : Int) d (sizeOnlyState T) k) a1 a2 a3 a4 a5
  have htickl := lineOnly_tick L (s : Int) d k
    (iterWrites justOpen (s : Int) d (lineOnlyState L) k) b1 b2 b3 b4 b5
  exact ⟨hticks.2, hticks.1, htickl.2, htickl.1⟩

/-- C4 witness: with threshold 5 and writes of 2 bytes the period is 3,
    so the third write rotates; with line threshold 1 the period is 2. -/
theorem claim4_witness :
    0 < 2 ∧
    (((sizeTick justOpen (iterWrites justOpen (2 : Int) "d" (sizeOnlyState 5) 2)
        (2 : Int) "d").2.isSome = true ↔ (2 + 1) % (5 / 2 + 1) = 0) ∧
     (iterWrites justOpen (2 : Int) "d" (sizeOnlyState 5) (2 + 1)).currentSize =
       ((((2 + 1) % (5 / 2 + 1)) * 2 : Nat) : Int) ∧
     ((sizeTick justOpen (iterWrites justOpen (2 : Int) "d" (lineOnlyState 1) 2)
        (2 : Int) "d").2.isSome = true ↔ (2 + 1) % (1 + 1) = 0) ∧
     (iterWrites justOpen (2 : Int) "d" (lineOnlyState 1) (2 + 1)).currentLines =
       (((2 + 1) % (1 + 1) : Nat) : Int)) :=
  ⟨by decide, claim4_theorem 5 2 1 (by decide) "d" 2⟩

/-- C5 counterexample: the claim says the Nth size/line rotation uses the
    rotation sequence value N as suffix, but the very first size rotation
    of a fresh writer names the file with suffix 2 (the code increments
    sizeRotateTimes and then formats sizeRotateTimes plus one), not 1. -/
theorem claim5_counterexample :
    (sizeTick justOpen
        { mkState with sizeRotated := true, rotateSize := 1 }
        5 "2015-01-02").2 = some "app.log.2" ∧
    (sizeTick justOpen
        { mkState with sizeRotated := true, rotateSize := 1 }
        5 "2015-01-02").2 ≠ some "app.log.1" := by
  decide

/-- C5 amended: a time-based rotation opens base.dateYesterday; a
    size/line rotation performed with rotation sequence n before the tick
    opens base.(n+2), or base.date.(n+2) with the current date when time
    rotation is also enabled — the numeric suffix is one greater than the
    post-increment rotation sequence.  The two parts are independent: st
    is any state on which a size/line rotation fires (with time rotation
    on or off), st2 any state on which a time rotation fires. -/
theorem claim5_theorem (o o2 : String → Option String) (st st2 : RotState)
    (s : Int) (d d2 dc y : String) (n : Nat)
    (hn : st.sizeRotateTimes = n)
    (h1 : (sizeTick o st s d).2.isSome = true)
    (h2 : (timeTick o2 st2 d2 dc y).2.isSome = true) :
    (sizeTick o st s d).2 =
      some (if st.timeRotated then
              st.fileName ++ "." ++ d ++ "." ++ toString (n + 2)
            else
              st.fileName ++ "." ++ toString (n + 2)) ∧
    (timeTick o2 st2 d2 dc y).2 = some (st2.fileName ++ "." ++ y) := by
  subst hn
  exact ⟨(sizeTick_rotated o st s d h1).2.2,
         (timeTick_rotated o2 st2 d2 dc y h2).2.2.2⟩

/-- C5 witness: a size-only writer with sequence 0 takes the dateless
    branch and opens app.log.2, while a time-only writer opens
    app.log.2015-01-01. -/
theorem claim5_witness :
    sizeOnlyW.sizeRotateTimes = 0 ∧
    (sizeTick justOpen sizeOnlyW 5 "2015-01-02").2.isSome = true ∧
    (timeTick justOpen timeOnlyW "2015-01-02" "2015-01-01"
        "2015-01-01").2.isSome = true ∧
    ((sizeTick justOpen sizeOnlyW 5 "2015-01-02").2 =
      some (if sizeOnlyW.timeRotated then
              sizeOnlyW.fileName ++ "." ++ "2015-01-02" ++ "." ++
                toString (0 + 2)
            else
              sizeOnlyW.fileName ++ "." ++ toString (0 + 2)) ∧
     (timeTick justOpen timeOnlyW "2015-01-02" "2015-01-01"
        "2015-01-01").2 =
      some (timeOnlyW.fileName ++ "." ++ "2015-01-01")) :=
  ⟨by decide, by decide, by decide,
    claim5_theorem justOpen justOpen sizeOnlyW timeOnlyW 5 "2015-01-02"
      "2015-01-02" "2015-01-01" "2015-01-01" 0 (by decide) (by decide)
      (by decide)⟩

/-- C6: the claim says a failed rotation open must not destroy the
    existing writer: the failure is reported and the current handle
    retained.  The code discards the os.OpenFile error, closes the old
    handle and installs the failed nil handle: on a rotating tick whose
    open fails, the writer that held app.log ends with no file handle at
    all, and no error is surfaced. -/
theorem claim6_theorem :
    (sizeTick failOpen
        { mkState with sizeRotated := true, rotateSize := 1 }
        5 "2015-01-02").2.isSome = true ∧
    ({ mkState with sizeRotated := true, rotateSize := 1 } : RotState).file =
      some "app.log" ∧
    (sizeTick failOpen
        { mkState with sizeRotated := true, rotateSize := 1 }
        5 "2015-01-02").1.file = none := by
  decide

/-- C7: write renders exactly the time prefix, the level prefix, the
    message and the terminator, with no placeholder substitution, and
    returns the byte count of that rendering; and whenever writef
    completes it returns exactly the number of bytes it appended to the
    buffer. -/
theorem claim7_theorem {A : Type} (spf : List Char → A → List Char)
    (tc lv msg fmt : List Char) (args : List A) (r : List Char × Nat)
    (h : writef spf tc lv fmt args = some r) :
    write tc lv msg =
      (tc ++ lv ++ msg ++ [EOL], (tc ++ lv ++ msg ++ [EOL]).length) ∧
    r.2 = r.1.length := by
  constructor
  · unfold write
    simp [List.length_append]
    omega
  · unfold writef at h
    cases hw : wrun spf fmt args 0 fmt
        { tag := false, tagPos := 0, escape := false, n := 0, last := 0,
          out := tc ++ lv, size := tc.length + lv.length } with
    | none =>
      simp only [hw] at h
      exact Option.noConfusion h
    | some st =>
      simp only [hw] at h
      have hs := wrun_size spf fmt args fmt 0 _ st hw (by simp)
      cases h
      simp [hs]
      omega

/-- C7 witness: a concrete writef run returning the pair of rendered
    bytes and their count. -/
theorem claim7_witness :
    writef spf0 [] [] [PLACEHOLDER, 'd'] [['5']] = some (['5', EOL], 2) ∧
    (write [] [] ['m'] =
      (([] : List Char) ++ [] ++ ['m'] ++ [EOL],
        (([] : List Char) ++ [] ++ ['m'] ++ [EOL]).length) ∧
     ((['5', EOL], 2) : List Char × Nat).2 =
      ((['5', EOL], 2) : List Char × Nat).1.length) :=
  ⟨by decide,
    claim7_theorem spf0 [] [] ['m'] [PLACEHOLDER, 'd'] [['5']]
      (['5', EOL], 2) (by decide)⟩

/-- C8: closing an open writer flushes every buffered byte to the sink
    and empties the buffer; a second close is a no-op; and write or
    writef on the closed writer append nothing to the buffer, leave the
    sink untouched and leave the writer closed. -/
theorem claim8_theorem {A : Type} (spf : List Char → A → List Char)
    (tc lv msg fmt : List Char) (args : List A) (w : BFW)
    (h : w.closed = false) :
    (bfwClose w).sink = w.sink ++ w.buffer ∧
    (bfwClose w).buffer = [] ∧
    (bfwClose w).closed = true ∧
    bfwClose (bfwClose w) = bfwClose w ∧
    (bfwWrite tc lv (bfwClose w) msg).buffer = (bfwClose w).buffer ∧
    (bfwWrite tc lv (bfwClose w) msg).sink = (bfwClose w).sink ∧
    (bfwWrite tc lv (bfwClose w) msg).closed = true ∧
    (∃ w2, bfwWritef spf tc lv (bfwClose w) fmt args = some w2 ∧
      w2.buffer = (bfwClose w).buffer ∧ w2.sink = (bfwClose w).sink ∧
      w2.closed = true) := by
  simp only [bfwClose, bfwWrite, bfwWritef, h, if_false, Bool.false_eq_true,
    reduceIte]
  refine ⟨by trivial, by trivial, by trivial, by trivial, ?_, ?_, ?_, ?_⟩ <;>
    split <;> simp

/-- An open writer fixture with one buffered byte, used by the close
    witness. -/
def w8 : BFW :=
  { closed := false, buffer := ['x'], sink := ['y'],
    sizeRotated := true, lineRotated := false, signals := [] }

/-- C8 witness: a concrete open writer with a byte in its buffer. -/
theorem claim8_witness :
    w8.closed = false ∧
    ((bfwClose w8).sink = w8.sink ++ w8.buffer ∧
     (bfwClose w8).buffer = [] ∧
     (bfwClose w8).closed = true ∧
     bfwClose (bfwClose w8) = bfwClose w8 ∧
     (bfwWrite ['t'] ['l'] (bfwClose w8) ['m']).buffer =
       (bfwClose w8).buffer ∧
     (bfwWrite ['t'] ['l'] (bfwClose w8) ['m']).sink = (bfwClose w8).sink ∧
     (bfwWrite ['t'] ['l'] (bfwClose w8) ['m']).closed = true ∧
     (∃ w2, bfwWritef spf0 ['t'] ['l'] (bfwClose w8) ['z'] [] = some w2 ∧
       w2.buffer = (bfwClose w8).buffer ∧ w2.sink = (bfwClose w8).sink ∧
       w2.closed = true)) :=
  ⟨by decide,
    claim8_theorem spf0 ['t'] ['l'] ['m'] ['z'] [] w8 (by decide)⟩

/-- C9: the three rotation setters are independent: SetTimeRotated leaves
    the size and line policies and their thresholds unchanged,
    SetRotateSize leaves the time and line policies and the line
    threshold unchanged, and SetRotateLines leaves the time and size
    policies and the size threshold unchanged. -/
theorem claim9_theorem (st : RotState) (b : Bool) (v w : Int) :
    (setTimeRotated st b).sizeRotated = st.sizeRotated ∧
    (setTimeRotated st b).rotateSize = st.rotateSize ∧
    (setTimeRotated st b).lineRotated = st.lineRotated ∧
    (setTimeRotated st b).rotateLines = st.rotateLines ∧
    (setTimeRotated st b).timeRotated = b ∧
    (setRotateSize st v).timeRotated = st.timeRotated ∧
    (setRotateSize st v).lineRotated = st.lineRotated ∧
    (setRotateSize st v).rotateLines = st.rotateLines ∧
    (setRotateLines st w).timeRotated = st.timeRotated ∧
    (setRotateLines st w).sizeRotated = st.sizeRotated ∧
    (setRotateLines st w).rotateSize = st.rotateSize := by
  unfold setTimeRotated setRotateSize setRotateLines
  refine ⟨rfl, rfl, rfl, rfl, rfl, ?_, ?_, ?_, ?_, ?_, ?_⟩ <;>
    split <;> rfl

/-- C10: a placeholder opened by a percent sign and never closed by a
    recognized verb makes writef emit the literal span before the percent
    twice: once flushed when the placeholder opens, and again inside the
    final tail flush, because last is not advanced on an unterminated
    placeholder; the returned size counts both copies. -/
theorem claim10_theorem {A : Type} (spf : List Char → A → List Char)
    (tc lv lit rest : List Char) (args : List A)
    (hlit : ∀ c ∈ lit, c ≠ PLACEHOLDER)
    (hrest : ∀ c ∈ rest, isVerb c = false ∧ c ≠ ESCAPE) :
    writef spf tc lv (lit ++ PLACEHOLDER :: rest) args =
      some (tc ++ lv ++ lit ++ (lit ++ PLACEHOLDER :: rest) ++ [EOL],
            tc.length + lv.length + 2 * lit.length + rest.length + 2) := by
  have hslice : slice (lit ++ PLACEHOLDER :: rest) 0 lit.length = lit := by
    unfold slice
    simp [List.take_left]
  have hstep : wstep spf (lit ++ PLACEHOLDER :: rest) args
      { tag := false, tagPos := 0, escape := false, n := 0, last := 0,
        out := tc ++ lv, size := tc.length + lv.length }
      (0 + lit.length) PLACEHOLDER =
      some { tag := true, tagPos := 0 + lit.length, escape := false, n := 0,
             last := 0, out := (tc ++ lv) ++ lit,
             size := tc.length + lv.length + lit.length } := by
    unfold wstep
    simp [hslice]
  have hrun : wrun spf (lit ++ PLACEHOLDER :: rest) args 0
      (lit ++ PLACEHOLDER :: rest)
      { tag := false, tagPos := 0, escape := false, n := 0, last := 0,
        out := tc ++ lv, size := tc.length + lv.length } =
      some { tag := true, tagPos := 0 + lit.length, escape := false, n := 0,
             last := 0, out := (tc ++ lv) ++ lit,
             size := tc.length + lv.length + lit.length } := by
    rw [wrun_append spf _ args lit (PLACEHOLDER :: rest) 0 _]
    rw [wrun_lit spf _ args lit 0 _ rfl rfl hlit]
    rw [Option.some_bind]
    unfold wrun
    rw [hstep]
    simp only []
    exact wrun_stuck spf _ args rest (0 + lit.length + 1) _ rfl hrest
  simp only [writef, hrun]
  simp [List.length_append]
  omega

/-- C10 witness: the format a-percent-z has an unterminated placeholder;
    the byte a is emitted twice and the returned size 5 counts both. -/
theorem claim10_witness :
    writef spf0 [] [] (['a'] ++ PLACEHOLDER :: ['z'])
        ([] : List (List Char)) =
      some (([] : List Char) ++ [] ++ ['a'] ++
              (['a'] ++ PLACEHOLDER :: ['z']) ++ [EOL],
            ([] : List Char).length + ([] : List Char).length +
              2 * (['a'] : List Char).length + (['z'] : List Char).length
              + 2) :=
  claim10_theorem spf0 [] [] ['a'] ['z'] [] (by decide) (by decide)

end Blog4go
